import Mathlib

/-!
Verification of the `module-acme-logging` argument-normalization and
record-assembly pipeline.

The definitions below are a shallow embedding of the library's core
(`init`'s `logMethod` hook, `getArgs`, `isNotEmpty`, `fail`,
`formatters.log` and the configured redaction path list).  JavaScript
values are modelled by the inductive `JVal`; machine integers do not
occur (JS bigints are arbitrary precision, sizes are byte counts).
The serializer used by the size guard (`safe-stable-stringify`) is
embedded as `stringify`: deterministic output with object keys sorted,
JSON semantics for the remaining values.
-/

set_option maxHeartbeats 1000000

namespace AcmeLogging

/-- A JavaScript value, as the logging core distinguishes them.
`err name message stack props` models an `Error` object: `name` is the
constructor name, `message` and `stack` are the non-enumerable standard
fields, and `props` are the custom own enumerable properties.
`func` stands for any value of JS type `function` (not serializable).
`date` carries epoch milliseconds.  `num` is modelled on integers: no
claim depends on float-specific behaviour.  `big` is a JS bigint. -/
inductive JVal where
  | undef
  | null
  | bool (b : Bool)
  | num (n : Int)
  | str (s : String)
  | big (n : Int)
  | date (ms : Int)
  | err (name : String) (message : String) (stack : String)
        (props : List (String × JVal))
  | obj (fields : List (String × JVal))
  | arr (elems : List JVal)
  | func
  deriving Repr

/-- JS `typeof`. -/
def typeOf : JVal → String
  | .undef => "undefined"
  | .null => "object"
  | .bool _ => "boolean"
  | .num _ => "number"
  | .str _ => "string"
  | .big _ => "bigint"
  | .date _ => "object"
  | .err _ _ _ _ => "object"
  | .obj _ => "object"
  | .arr _ => "object"
  | .func => "function"

/-- `value instanceof Date`. -/
def isDate : JVal → Bool
  | .date _ => true
  | _ => false

/-- `value instanceof Error`. -/
def isError : JVal → Bool
  | .err _ _ _ _ => true
  | _ => false

/-- Decimal digits, fuel-driven so that the definition is structural
and computes inside the kernel.  `natDigits` always supplies enough
fuel. -/
def natDigitsAux : Nat → Nat → List Char
  | 0, _ => []
  | fuel + 1, n =>
    if n < 10 then [Nat.digitChar n]
    else natDigitsAux fuel (n / 10) ++ [Nat.digitChar (n % 10)]

/-- Decimal digits of a natural number, most significant first. -/
def natDigits (n : Nat) : List Char :=
  natDigitsAux (n + 1) n

theorem natDigitsAux_congr : ∀ f1 n f2 : Nat, n < f1 → n < f2 →
    natDigitsAux f1 n = natDigitsAux f2 n := by
  intro f1
  induction f1 with
  | zero => omega
  | succ f ih =>
    intro n f2 h1 h2
    cases f2 with
    | zero => omega
    | succ g =>
      show (if n < 10 then _ else _) = (if n < 10 then _ else _)
      by_cases hn : n < 10
      · rw [if_pos hn, if_pos hn]
      · rw [if_neg hn, if_neg hn]
        rw [ih (n / 10) g (by omega) (by omega)]

theorem natDigits_step (n : Nat) :
    natDigits n = if n < 10 then [Nat.digitChar n]
      else natDigits (n / 10) ++ [Nat.digitChar (n % 10)] := by
  show natDigitsAux (n + 1) n = _
  by_cases hn : n < 10
  · rw [if_pos hn]
    show (if n < 10 then _ else _) = _
    rw [if_pos hn]
  · rw [if_neg hn]
    show (if n < 10 then _ else _) = _
    rw [if_neg hn]
    rw [natDigitsAux_congr n (n / 10) (n / 10 + 1) (by omega) (by omega)]
    rfl

/-- Decimal rendering of a natural number. -/
def natStr (n : Nat) : String :=
  String.mk (natDigits n)

/-- JS `String(bigint)` (also the JSON rendering of integers in the
model): the exact decimal representation, with a leading minus sign for
negative values. -/
def jsBigString (n : Int) : String :=
  if n < 0 then String.mk ('-' :: natDigits n.natAbs) else String.mk (natDigits n.natAbs)

/-- Read a decimal digit string back as a natural number. -/
def parseNatChars (ds : List Char) : Nat :=
  ds.foldl (fun a c => a * 10 + (c.toNat - 48)) 0

/-- Read a decimal string (optional leading minus) back as an integer:
the mathematical meaning of a rendered number. -/
def parseDecInt (s : String) : Int :=
  match s.data with
  | [] => 0
  | c :: rest => if c = '-' then -(parseNatChars rest : Int) else (parseNatChars (c :: rest) : Int)

/-- `Object.keys(value)` — own enumerable keys.  Dates and wrappers of
primitives have none; an `Error`'s `message` and `stack` are not
enumerable, only its custom properties are; arrays enumerate their
indices. -/
def jsKeys : JVal → List String
  | .obj fs => fs.map Prod.fst
  | .arr es => (List.range es.length).map natStr
  | .err _ _ _ props => props.map Prod.fst
  | _ => []

/-- `value.trim().length === 0` for strings: every character is
whitespace (true in particular for the empty string). -/
def jsTrimEmpty : JVal → Bool
  | .str s => s.data.all Char.isWhitespace
  | _ => false

/-- `isNotEmpty` from the source (part_000 lines 146-152). -/
def isNotEmpty (value : JVal) : Bool :=
  match value with
  | .undef => false
  | .null => false
  | v =>
    if typeOf v = "string" ∧ jsTrimEmpty v then false
    else if typeOf v = "object" ∧ (jsKeys v).length = 0 then false
    else true

/-- `fail` from the source (part_000 lines 154-156):
`{ err: new Error(message) }`.  The `Error` constructor captures the
stack trace at the construction site at runtime; the embedding threads
that capture as the `callSite` argument. -/
def fail (callSite : String) (message : String) : JVal :=
  .obj [("err", .err "Error" message callSite [])]

/-- The classification chain of `getArgs` (part_000 lines 132-141),
before the emptiness check.  JS indexing out of range yields
`undefined`. -/
def classifyArgs (inputArgs : List JVal) : List JVal :=
  if 2 ≤ inputArgs.length ∧ isDate (inputArgs.getD 1 .undef) then
    [inputArgs.getD 0 .undef, .obj [("ts", inputArgs.getD 1 .undef)]]
  else if 2 ≤ inputArgs.length ∧ isError (inputArgs.getD 1 .undef) then
    [inputArgs.getD 0 .undef, .obj [("err", inputArgs.getD 1 .undef)]]
  else if 2 ≤ inputArgs.length then
    inputArgs.take 2
  else if inputArgs.length = 1 ∧
      ["boolean", "number", "string"].contains (typeOf (inputArgs.getD 0 .undef)) then
    inputArgs
  else if inputArgs.length = 1 ∧ typeOf (inputArgs.getD 0 .undef) = "bigint" then
    [.str (match inputArgs.getD 0 .undef with
           | .big n => jsBigString n
           | v => typeOf v)]
  else if inputArgs.length = 1 ∧ isDate (inputArgs.getD 0 .undef) then
    [.undef, .obj [("ts", inputArgs.getD 0 .undef)]]
  else if inputArgs.length = 1 ∧ isError (inputArgs.getD 0 .undef) then
    [.undef, .obj [("err", inputArgs.getD 0 .undef)]]
  else if inputArgs.length = 1 then
    .undef :: inputArgs
  else
    inputArgs

/-- `getArgs` from the source (part_000 lines 131-144): classify, then
apply the emptiness check.  `callSite` is the runtime stack capture of
the `new Error` in `fail` (see `fail`). -/
def getArgs (callSite : String) (inputArgs : List JVal) : List JVal :=
  let args := classifyArgs inputArgs
  if args.any isNotEmpty then args else [.undef, fail callSite "Empty log message"]

/-- JS property lookup on an object's own fields. -/
def getKey (fs : List (String × JVal)) (k : String) : Option JVal :=
  Option.map Prod.snd (fs.find? (fun p => p.1 == k))

/-- JS property assignment: an existing key keeps its position and gets
the new value, a fresh key is appended. -/
def setKey : List (String × JVal) → String → JVal → List (String × JVal)
  | [], k, v => [(k, v)]
  | p :: rest, k, v => if p.1 = k then (k, v) :: rest else p :: setKey rest k v

/-- The own enumerable fields a value contributes under object spread:
objects and errors their properties, arrays and strings their indexed
elements, all other values nothing. -/
def spreadFields : JVal → List (String × JVal)
  | .obj fs => fs
  | .err _ _ _ props => props
  | .arr es => es.enum.map (fun p => (natStr p.1, p.2))
  | .str s => s.data.enum.map (fun p => (natStr p.1, .str (String.mk [p.2])))
  | _ => []

/-- `{ ...a, ...b }`: the fields of `a` assigned in order, then the
fields of `b`, later assignments winning. -/
def spreadMerge (a b : List (String × JVal)) : List (String × JVal) :=
  b.foldl (fun acc p => setKey acc p.1 p.2) a

/-- JSON escaping of one character, as `JSON.stringify` performs it. -/
def escapeChar (c : Char) : List Char :=
  if c = '"' then ['\\', '"']
  else if c = '\\' then ['\\', '\\']
  else if c = '\n' then ['\\', 'n']
  else if c = '\r' then ['\\', 'r']
  else if c = '\t' then ['\\', 't']
  else if c.toNat = 8 then ['\\', 'b']
  else if c.toNat = 12 then ['\\', 'f']
  else if c.toNat < 32 then
    ['\\', 'u', '0', '0', Nat.digitChar (c.toNat / 16), Nat.digitChar (c.toNat % 16)]
  else [c]

/-- JSON string escaping. -/
def jsonEscape (s : String) : String :=
  String.mk (s.data.map escapeChar).flatten

/-- A JSON string literal. -/
def jsonQuote (s : String) : String :=
  "\"" ++ jsonEscape s ++ "\""

/-- UTF-8 length of one character (`Buffer.byteLength` counts UTF-8
bytes). -/
def charUtf8Len (c : Char) : Nat :=
  if c.toNat < 128 then 1
  else if c.toNat < 2048 then 2
  else if c.toNat < 65536 then 3
  else 4

/-- `Buffer.byteLength(s)`: UTF-8 byte count. -/
def byteLength (s : String) : Nat :=
  s.data.foldl (fun n c => n + charUtf8Len c) 0

/-- Zero-padded decimal rendering. -/
def padNat (width n : Nat) : String :=
  let ds := natDigits n
  String.mk (List.replicate (width - ds.length) '0' ++ ds)

/-- `Date.prototype.toISOString` on epoch milliseconds: proleptic
Gregorian civil date (Howard Hinnant's days-from-civil inverse), with
JS expanded years outside 0000-9999. -/
def toISOString (ms : Int) : String :=
  let days : Int := Int.fdiv ms 86400000
  let msOfDay : Nat := (ms - days * 86400000).toNat
  let z : Int := days + 719468
  let era : Int := Int.fdiv z 146097
  let doe : Nat := (z - era * 146097).toNat
  let yoe : Nat := (doe - doe / 1460 + doe / 36524 - doe / 146096) / 365
  let doy : Nat := doe - (365 * yoe + yoe / 4 - yoe / 100)
  let mp : Nat := (5 * doy + 2) / 153
  let d : Nat := doy - (153 * mp + 2) / 5 + 1
  let m : Nat := if mp < 10 then mp + 3 else mp - 9
  let y : Int := (yoe : Int) + era * 400 + (if m ≤ 2 then 1 else 0)
  let yearStr : String :=
    if 0 ≤ y ∧ y ≤ 9999 then padNat 4 y.toNat
    else if y < 0 then "-" ++ padNat 6 (-y).toNat
    else "+" ++ padNat 6 y.toNat
  yearStr ++ "-" ++ padNat 2 m ++ "-" ++ padNat 2 d ++ "T" ++
    padNat 2 (msOfDay / 3600000) ++ ":" ++ padNat 2 (msOfDay % 3600000 / 60000) ++ ":" ++
    padNat 2 (msOfDay % 60000 / 1000) ++ "." ++ padNat 3 (msOfDay % 1000) ++ "Z"

/-- Insertion into a key-sorted list of rendered fields. -/
def insertPair (p : String × String) : List (String × String) → List (String × String)
  | [] => [p]
  | q :: rest => if p.1 < q.1 then p :: q :: rest else q :: insertPair p rest

/-- Key-sort of rendered fields: `safe-stable-stringify` emits object
keys in sorted order (its deterministic default). -/
def sortPairs : List (String × String) → List (String × String)
  | [] => []
  | p :: rest => insertPair p (sortPairs rest)

/-- Braces are written with their escape codes throughout. -/
def renderObj (pairs : List (String × String)) : String :=
  "\x7b" ++ String.intercalate "," ((sortPairs pairs).map (fun p => jsonQuote p.1 ++ ":" ++ p.2)) ++ "\x7d"

/-- Render a serialized JSON array. -/
def renderArr (elems : List String) : String :=
  "[" ++ String.intercalate "," elems ++ "]"

mutual

/-- `safe-stable-stringify` (the serializer the size guard uses,
part_000 line 69): JSON with deterministic sorted keys.  `undefined`
and functions are omitted from objects and become `null` in arrays;
dates render as quoted ISO-8601 via `toJSON`; an `Error`'s own
enumerable properties (its custom props) are what gets serialized;
bigints render as plain decimal (the library's default bigint
support). -/
def stringifyVal : JVal → Option String
  | .undef => none
  | .func => none
  | .null => some "null"
  | .bool b => some (cond b "true" "false")
  | .num n => some (jsBigString n)
  | .big n => some (jsBigString n)
  | .str s => some (jsonQuote s)
  | .date ms => some (jsonQuote (toISOString ms))
  | .err _ _ _ props => some (renderObj (stringifyFields props))
  | .obj fs => some (renderObj (stringifyFields fs))
  | .arr es => some (renderArr (stringifyElems es))
termination_by structural v => v

/-- Serialize an object's fields in order, omitting unrepresentable
values. -/
def stringifyFields : List (String × JVal) → List (String × String)
  | [] => []
  | (k, v) :: rest =>
    (match stringifyVal v with
     | some s => [(k, s)]
     | none => []) ++ stringifyFields rest
termination_by structural l => l

/-- Serialize array elements, `null` for unrepresentable values. -/
def stringifyElems : List JVal → List String
  | [] => []
  | v :: rest => (stringifyVal v).getD "null" :: stringifyElems rest
termination_by structural l => l

end

/-- Top-level serialization (the argument of `Buffer.byteLength`). -/
def stringify (v : JVal) : String :=
  (stringifyVal v).getD "undefined"

/-- Comma grouping on a reversed digit list. -/
def groupRev : List Char → List Char
  | a :: b :: c :: d :: rest => a :: b :: c :: ',' :: groupRev (d :: rest)
  | l => l

/-- `Number.prototype.toLocaleString` under the default `en-US`-style
locale: decimal digits with grouping separators every three digits. -/
def toLocaleString (n : Nat) : String :=
  String.mk (groupRev (natDigits n).reverse).reverse

/-- The oversize diagnostic text built at part_000 line 71. -/
def oversizeText (size maxSize : Nat) : String :=
  "Log record size of " ++ toLocaleString size ++
    " bytes exceeds maximum of " ++ toLocaleString maxSize ++ " bytes"

/-- `{ ...store, ...ctx }` of part_000 line 67. -/
def mergeStoreCtx (store : List (String × JVal)) (ctx : JVal) : List (String × JVal) :=
  spreadMerge store (spreadFields ctx)

/-- The candidate `outputArgs` pair of part_000 line 67:
`[{ ...store, ...ctx }, message]` with `[message, ctx] = getArgs(inputArgs)`. -/
def outputArgsOf (store : List (String × JVal)) (callSite : String) (inputArgs : List JVal) :
    List JVal :=
  [.obj (mergeStoreCtx store ((getArgs callSite inputArgs).getD 1 .undef)),
   (getArgs callSite inputArgs).getD 0 .undef]

/-- The size the guard measures (part_000 line 69):
`Buffer.byteLength(stringify(outputArgs))`. -/
def measuredSize (store : List (String × JVal)) (callSite : String) (inputArgs : List JVal) :
    Nat :=
  byteLength (stringify (.arr (outputArgsOf store callSite inputArgs)))

/-- The `logMethod` hook of part_000 lines 64-73.  `store` is the
ambient context from async-local storage (`als.getStore() || {}`),
`maxSize` the configured ceiling, and `callSite` the runtime stack
capture threaded to any `new Error` (see `fail`). -/
def logMethod (store : List (String × JVal)) (maxSize : Nat) (callSite : String)
    (inputArgs : List JVal) : List JVal :=
  if measuredSize store callSite inputArgs > maxSize then
    [fail callSite (oversizeText (measuredSize store callSite inputArgs) maxSize)]
  else outputArgsOf store callSite inputArgs

/-- `formatters.log` from the source (part_000 lines 51-54):
`const { error, ...context } = object; return { err: error, ...context }`. -/
def formattersLog (object : List (String × JVal)) : List (String × JVal) :=
  let error := (getKey object "error").getD .undef
  let context := object.filter (fun p => p.1 ≠ "error")
  spreadMerge [("err", error)] context

/-- Modelled from the spec: the external logging engine's standard
error serializer, applied to the `err` key of the log object — "Error
instances become `{ type: constructorName, message, stack,
...ownEnumerableProperties }`" (spec section 4.2 step 3).  The engine
itself (pino) is outside `src/`.  Non-error values pass through. -/
def serializeError : JVal → JVal
  | .err name message stack props =>
    .obj (("type", .str name) :: ("message", .str message) :: ("stack", .str stack) :: props)
  | v => v

/-- Modelled from the spec: the engine serializes the value under its
error key (`err`) with the standard error serializer (spec section 4.2
step 3); other keys are untouched. -/
def applyErrSerializer (fs : List (String × JVal)) : List (String × JVal) :=
  fs.map (fun p => if p.1 = "err" then ("err", serializeError p.2) else p)

/-- One segment of a redaction path: a literal key, the object
wildcard `*`, or the array wildcard `[*]`. -/
inductive Seg where
  | key (k : String)
  | wild
  | wildArr

/-- Modelled from the spec: the external redaction capability —
"replacement of configured field paths (by name or wildcard path) with
a fixed redaction marker" (spec sections 1 and 3).  A terminal segment
replaces the addressed value by the marker; paths that do not resolve
leave the value untouched.  In the real stack, pino splits a
leading-wildcard path across every top-level key of the log object and
fast-redact's wildcard iterates the keys of whatever value sits there —
an object's fields or an array's indices alike — so both the `*` and
the `[*]` wildcard fan out over object fields as well as array
elements. -/
def redactSegs : List Seg → JVal → JVal
  | [], _ => .str "[Redacted]"
  | .key k :: rest, .obj fs =>
    .obj (fs.map (fun p => if p.1 = k then (k, redactSegs rest p.2) else p))
  | .wild :: rest, .obj fs =>
    .obj (fs.map (fun p => (p.1, redactSegs rest p.2)))
  | .wild :: rest, .arr es => .arr (es.map (redactSegs rest))
  | .wildArr :: rest, .obj fs =>
    .obj (fs.map (fun p => (p.1, redactSegs rest p.2)))
  | .wildArr :: rest, .arr es => .arr (es.map (redactSegs rest))
  | _, v => v

/-- The baseline redaction path list configured by the source (part_000
lines 94-117), in order: `password`, `email`, `*.password`, `*.email`,
`*[*].password`, `*[*].email`, then `headers.*` under each of `req`,
`request`, `res`, `resp`, `response`, under `res.req`, `resp.req`,
`response.request`, and each of those eight again under `err`. -/
def builtinPaths : List (List Seg) :=
  [ [.key "password"],
    [.key "email"],
    [.wild, .key "password"],
    [.wild, .key "email"],
    [.wild, .wildArr, .key "password"],
    [.wild, .wildArr, .key "email"],
    [.key "req", .key "headers", .wild],
    [.key "request", .key "headers", .wild],
    [.key "res", .key "headers", .wild],
    [.key "resp", .key "headers", .wild],
    [.key "response", .key "headers", .wild],
    [.key "res", .key "req", .key "headers", .wild],
    [.key "resp", .key "req", .key "headers", .wild],
    [.key "response", .key "request", .key "headers", .wild],
    [.key "err", .key "req", .key "headers", .wild],
    [.key "err", .key "request", .key "headers", .wild],
    [.key "err", .key "res", .key "headers", .wild],
    [.key "err", .key "resp", .key "headers", .wild],
    [.key "err", .key "response", .key "headers", .wild],
    [.key "err", .key "res", .key "req", .key "headers", .wild],
    [.key "err", .key "resp", .key "req", .key "headers", .wild],
    [.key "err", .key "response", .key "request", .key "headers", .wild] ]

/-- Apply every configured redaction path. -/
def redactAll (paths : List (List Seg)) (v : JVal) : JVal :=
  paths.foldl (fun acc p => redactSegs p acc) v

/-- Modelled from the spec: the context of the record as it leaves the
core — the merged object reshaped by `formatters.log` (source), the
engine's error serializer on the `err` key, and redaction last
("always happens last, after context merge, before the record leaves
the core", spec section 3). -/
def recordCtx (merged : List (String × JVal)) : JVal :=
  redactAll builtinPaths (.obj (applyErrSerializer (formattersLog merged)))

/-- Modelled from the spec: the record message the engine emits.  The
spec's degenerate and oversize records carry no explicit message — the
hook passes `[{ err }]` alone — yet spec sections 4.2/8 state the
resulting record's `message` reads the error text; the engine therefore
surfaces `ctx.err.message` when the call supplies no message. -/
def recordMessage (message : JVal) (merged : List (String × JVal)) : JVal :=
  match message with
  | .undef =>
    match getKey merged "err" with
    | some (.err _ m _ _) => .str m
    | _ => .undef
  | m => m

/-- The `(context, message)` pair of the record a call emits: the
`logMethod` output, pushed through the engine-side shaping above. -/
def emitted (store : List (String × JVal)) (maxSize : Nat) (callSite : String)
    (inputArgs : List JVal) : JVal × JVal :=
  match logMethod store maxSize callSite inputArgs with
  | [.obj fs, m] => (recordCtx fs, recordMessage m fs)
  | [.obj fs] => (recordCtx fs, recordMessage .undef fs)
  | _ => (.undef, .undef)

/-- Field lookup along a key path, for stating what a record contains. -/
def atPath : JVal → List String → Option JVal
  | v, [] => some v
  | .obj fs, k :: rest =>
    match getKey fs k with
    | some v => atPath v rest
    | none => none
  | _, _ :: _ => none

/-- The action of one redaction path step on an object's fields: the
field named `k`, if present, has the remaining path applied to its
value. -/
def rsub (k : String) (segs : List Seg) (props : List (String × JVal)) :
    List (String × JVal) :=
  props.map (fun p => if p.1 = k then (k, redactSegs segs p.2) else p)

/-- The action of one wildcard path step on an object's fields: the
remaining path is applied to every value. -/
def rwild (segs : List Seg) (props : List (String × JVal)) : List (String × JVal) :=
  props.map (fun p => (p.1, redactSegs segs p.2))

/-- What it means for a record context to carry a serialized error:
`ctx.err` holds the error's constructor type, message and stack, and
its key list extends the error's own custom property names. -/
def ctxCarriesErr (out : JVal) (ty ms st : String) (props : List (String × JVal)) : Prop :=
  atPath out ["err", "type"] = some (.str ty) ∧
  atPath out ["err", "message"] = some (.str ms) ∧
  atPath out ["err", "stack"] = some (.str st) ∧
  (atPath out ["err"]).map jsKeys = some ("type" :: "message" :: "stack" :: props.map Prod.fst)

/-! ## Basic lemmas -/

theorem natDigits_ne_nil (n : Nat) : natDigits n ≠ [] := by
  rw [natDigits_step]
  split <;> simp

theorem natDigits_digits (n : Nat) : ∀ c ∈ natDigits n, c.isDigit = true := by
  induction n using Nat.strong_induction_on with
  | _ n ih =>
    rw [natDigits_step]
    split
    · next h =>
      intro c hc
      simp only [List.mem_singleton] at hc
      subst hc
      interval_cases n <;> decide
    · next h =>
      intro c hc
      rw [List.mem_append] at hc
      rcases hc with hc | hc
      · exact ih (n / 10) (Nat.div_lt_self (by omega) (by omega)) c hc
      · simp only [List.mem_singleton] at hc
        subst hc
        have hm : n % 10 < 10 := Nat.mod_lt _ (by omega)
        generalize n % 10 = m at hm
        interval_cases m <;> decide

theorem parseNatChars_append (l : List Char) (c : Char) :
    parseNatChars (l ++ [c]) = parseNatChars l * 10 + (c.toNat - 48) := by
  simp [parseNatChars, List.foldl_append]

theorem parseNatChars_natDigits (n : Nat) : parseNatChars (natDigits n) = n := by
  induction n using Nat.strong_induction_on with
  | _ n ih =>
    rw [natDigits_step]
    split
    · next h =>
      interval_cases n <;> decide
    · next h =>
      rw [parseNatChars_append, ih (n / 10) (Nat.div_lt_self (by omega) (by omega))]
      have hm : n % 10 < 10 := Nat.mod_lt _ (by omega)
      have hdm := Nat.div_add_mod n 10
      have hchar : (Nat.digitChar (n % 10)).toNat - 48 = n % 10 := by
        generalize n % 10 = m at hm
        interval_cases m <;> decide
      omega

theorem isDigit_not_whitespace (c : Char) (h : c.isDigit = true) : c.isWhitespace = false := by
  by_contra hw
  rw [Bool.not_eq_false] at hw
  simp only [Char.isWhitespace, Bool.or_eq_true, decide_eq_true_eq] at hw
  rcases hw with ((h' | h') | h') | h' <;> subst h' <;> exact absurd h (by decide)

theorem jsTrimEmpty_jsBigString (n : Int) : jsTrimEmpty (.str (jsBigString n)) = false := by
  show (jsBigString n).data.all Char.isWhitespace = false
  unfold jsBigString
  split
  · have hd : ('-').isWhitespace = false := by decide
    simp [hd]
  · obtain ⟨c, cs, hcons⟩ := List.exists_cons_of_ne_nil (natDigits_ne_nil n.natAbs)
    have hc : c.isDigit = true := natDigits_digits n.natAbs c (hcons ▸ List.mem_cons_self c cs)
    simp [hcons, isDigit_not_whitespace c hc]

theorem parseDecInt_jsBigString (n : Int) : parseDecInt (jsBigString n) = n := by
  unfold jsBigString
  split
  · next h =>
    show (if '-' = '-' then -(parseNatChars (natDigits n.natAbs) : Int)
          else (parseNatChars ('-' :: natDigits n.natAbs) : Int)) = n
    rw [if_pos rfl, parseNatChars_natDigits]
    omega
  · next h =>
    obtain ⟨c, cs, hcons⟩ := List.exists_cons_of_ne_nil (natDigits_ne_nil n.natAbs)
    have hc : c.isDigit = true := natDigits_digits n.natAbs c (hcons ▸ List.mem_cons_self c cs)
    have hne : ¬ c = '-' := by
      intro he
      subst he
      exact absurd hc (by decide)
    rw [hcons]
    show (if c = '-' then -(parseNatChars cs : Int) else (parseNatChars (c :: cs) : Int)) = n
    rw [if_neg hne, ← hcons, parseNatChars_natDigits]
    omega

theorem classifyArgs_cons_cons (a b : JVal) (r : List JVal) :
    classifyArgs (a :: b :: r) =
      if isDate b then [a, .obj [("ts", b)]]
      else if isError b then [a, .obj [("err", b)]]
      else [a, b] := by
  simp [classifyArgs, List.getD]

theorem getKey_cons (p : String × JVal) (fs : List (String × JVal)) (k : String) :
    getKey (p :: fs) k = if p.1 = k then some p.2 else getKey fs k := by
  by_cases h : p.1 = k <;> simp [getKey, List.find?_cons, h]

theorem getKey_setKey_self (fs : List (String × JVal)) (k : String) (v : JVal) :
    getKey (setKey fs k v) k = some v := by
  induction fs with
  | nil => simp [setKey, getKey_cons]
  | cons p rest ih =>
    unfold setKey
    by_cases h : p.1 = k
    · rw [if_pos h, getKey_cons]
      simp
    · rw [if_neg h, getKey_cons, if_neg h, ih]

theorem getKey_setKey_ne (fs : List (String × JVal)) (k k' : String) (v : JVal)
    (h : k' ≠ k) : getKey (setKey fs k v) k' = getKey fs k' := by
  induction fs with
  | nil =>
    simp [setKey, getKey_cons, getKey, Ne.symm h]
  | cons p rest ih =>
    unfold setKey
    by_cases hp : p.1 = k
    · rw [if_pos hp, getKey_cons, getKey_cons, if_neg (Ne.symm h), hp, if_neg (Ne.symm h)]
    · rw [if_neg hp, getKey_cons, getKey_cons, ih]

theorem getKey_eq_none (fs : List (String × JVal)) (k : String)
    (h : k ∉ fs.map Prod.fst) : getKey fs k = none := by
  induction fs with
  | nil => rfl
  | cons p rest ih =>
    rw [List.map_cons, List.mem_cons, not_or] at h
    have hne : ¬ p.1 = k := fun hp => h.1 hp.symm
    rw [getKey_cons, if_neg hne, ih h.2]

theorem spreadMerge_lookup (A C : List (String × JVal)) (k : String)
    (hnd : (C.map Prod.fst).Nodup) :
    getKey (spreadMerge A C) k = (getKey C k).or (getKey A k) := by
  induction C generalizing A with
  | nil => simp [spreadMerge, getKey]
  | cons p rest ih =>
    rw [List.map_cons, List.nodup_cons] at hnd
    have step : spreadMerge A (p :: rest) = spreadMerge (setKey A p.1 p.2) rest := by
      simp [spreadMerge]
    rw [step, ih (setKey A p.1 p.2) hnd.2, getKey_cons]
    by_cases h : p.1 = k
    · subst h
      rw [getKey_eq_none rest p.1 hnd.1, getKey_setKey_self]
      simp
    · rw [getKey_setKey_ne A p.1 k p.2 (Ne.symm h), if_neg h]

theorem redact_top_ne (k : String) (rest : List Seg) (Y : JVal)
    (hk : ¬ ("err" : String) = k) :
    redactSegs (.key k :: rest) (.obj [("err", Y)]) = .obj [("err", Y)] := by
  simp [redactSegs, hk]

theorem redact_top_err (rest : List Seg) (Y : JVal) :
    redactSegs (.key "err" :: rest) (.obj [("err", Y)]) = .obj [("err", redactSegs rest Y)] := by
  simp [redactSegs]

theorem redact_top_wild (rest : List Seg) (Y : JVal) :
    redactSegs (.wild :: rest) (.obj [("err", Y)]) = .obj [("err", redactSegs rest Y)] := by
  simp [redactSegs]

theorem redact_err_wildArr_key (k : String) (rest : List Seg) (x y z : String)
    (L : List (String × JVal)) :
    redactSegs (.wildArr :: .key k :: rest)
        (.obj (("type", .str x) :: ("message", .str y) :: ("stack", .str z) :: L)) =
      .obj (("type", .str x) :: ("message", .str y) :: ("stack", .str z) ::
        rwild (.key k :: rest) L) := by
  simp [redactSegs, rwild]

theorem redact_err_key (k : String) (rest : List Seg) (a b c : JVal)
    (L : List (String × JVal)) (h1 : ¬ ("type" : String) = k)
    (h2 : ¬ ("message" : String) = k) (h3 : ¬ ("stack" : String) = k) :
    redactSegs (.key k :: rest) (.obj (("type", a) :: ("message", b) :: ("stack", c) :: L)) =
      .obj (("type", a) :: ("message", b) :: ("stack", c) :: rsub k rest L) := by
  simp [redactSegs, rsub, h1, h2, h3]

/-- The full emission shaping of a merged context holding one error
under `err`: the error is serialized, and redaction leaves its `type`,
`message` and `stack` fields alone, descending only into custom
properties named by the configured paths. -/
theorem recordCtx_err_general (ty ms st : String) (props : List (String × JVal)) :
    recordCtx [("err", .err ty ms st props)] =
      .obj [("err", .obj (("type", .str ty) :: ("message", .str ms) :: ("stack", .str st) ::
        (rsub "response" [.key "request", .key "headers", .wild]
        (rsub "resp" [.key "req", .key "headers", .wild]
        (rsub "res" [.key "req", .key "headers", .wild]
        (rsub "response" [.key "headers", .wild]
        (rsub "resp" [.key "headers", .wild]
        (rsub "res" [.key "headers", .wild]
        (rsub "request" [.key "headers", .wild]
        (rsub "req" [.key "headers", .wild]
        (rwild [.key "email"]
        (rwild [.key "password"]
        (rsub "email" []
        (rsub "password" [] props))))))))))))))] := by
  have h0 : formattersLog [("err", .err ty ms st props)] = [("err", .err ty ms st props)] := rfl
  have h1 : applyErrSerializer [("err", .err ty ms st props)] =
      [("err", .obj (("type", .str ty) :: ("message", .str ms) :: ("stack", .str st) ::
        props))] := rfl
  unfold recordCtx
  rw [h0, h1]
  simp only [redactAll, builtinPaths, List.foldl]
  rw [redact_top_ne _ _ _ (by decide)]
  rw [redact_top_ne _ _ _ (by decide)]
  rw [redact_top_wild, redact_err_key _ _ _ _ _ _ (by decide) (by decide) (by decide)]
  rw [redact_top_wild, redact_err_key _ _ _ _ _ _ (by decide) (by decide) (by decide)]
  rw [redact_top_wild, redact_err_wildArr_key]
  rw [redact_top_wild, redact_err_wildArr_key]
  rw [redact_top_ne _ _ _ (by decide)]
  rw [redact_top_ne _ _ _ (by decide)]
  rw [redact_top_ne _ _ _ (by decide)]
  rw [redact_top_ne _ _ _ (by decide)]
  rw [redact_top_ne _ _ _ (by decide)]
  rw [redact_top_ne _ _ _ (by decide)]
  rw [redact_top_ne _ _ _ (by decide)]
  rw [redact_top_ne _ _ _ (by decide)]
  rw [redact_top_err, redact_err_key _ _ _ _ _ _ (by decide) (by decide) (by decide)]
  rw [redact_top_err, redact_err_key _ _ _ _ _ _ (by decide) (by decide) (by decide)]
  rw [redact_top_err, redact_err_key _ _ _ _ _ _ (by decide) (by decide) (by decide)]
  rw [redact_top_err, redact_err_key _ _ _ _ _ _ (by decide) (by decide) (by decide)]
  rw [redact_top_err, redact_err_key _ _ _ _ _ _ (by decide) (by decide) (by decide)]
  rw [redact_top_err, redact_err_key _ _ _ _ _ _ (by decide) (by decide) (by decide)]
  rw [redact_top_err, redact_err_key _ _ _ _ _ _ (by decide) (by decide) (by decide)]
  rw [redact_top_err, redact_err_key _ _ _ _ _ _ (by decide) (by decide) (by decide)]

theorem rsub_fst (k : String) (segs : List Seg) (l : List (String × JVal)) :
    (rsub k segs l).map Prod.fst = l.map Prod.fst := by
  induction l with
  | nil => rfl
  | cons p rest ih =>
    unfold rsub at ih ⊢
    rw [List.map_cons, List.map_cons, List.map_cons]
    by_cases h : p.1 = k
    · rw [if_pos h, ih]
      simp [h]
    · rw [if_neg h, ih]

theorem rwild_fst (segs : List Seg) (l : List (String × JVal)) :
    (rwild segs l).map Prod.fst = l.map Prod.fst := by
  induction l with
  | nil => rfl
  | cons p rest ih =>
    unfold rwild at ih ⊢
    rw [List.map_cons, List.map_cons, List.map_cons, ih]

/-- Renaming an `error` key to `err` makes the two wrappings emit
identically. -/
theorem recordCtx_error (E : JVal) : recordCtx [("error", E)] = recordCtx [("err", E)] := by
  unfold recordCtx
  have h1 : formattersLog [("error", E)] = [("err", E)] := rfl
  have h2 : formattersLog [("err", E)] = [("err", E)] := rfl
  rw [h1, h2]

/-- When the normalized pair is `[a, b]` and the candidate fits the
ceiling, the emitted record is the engine shaping of
`{ ...store, ...b }` (here with an empty ambient store) with message
`a`. -/
theorem emitted_fst (maxSize : Nat) (callSite : String) (args : List JVal) (a b : JVal)
    (hargs : getArgs callSite args = [a, b])
    (hsize : measuredSize [] callSite args ≤ maxSize) :
    (emitted [] maxSize callSite args).1 = recordCtx (spreadMerge [] (spreadFields b)) ∧
    (emitted [] maxSize callSite args).2 =
      recordMessage a (spreadMerge [] (spreadFields b)) := by
  have hout : outputArgsOf [] callSite args = [.obj (spreadMerge [] (spreadFields b)), a] := by
    rw [outputArgsOf, hargs]
    rfl
  have hlog : logMethod [] maxSize callSite args =
      [.obj (spreadMerge [] (spreadFields b)), a] := by
    rw [logMethod, if_neg (by omega), hout]
  unfold emitted
  rw [hlog]
  exact ⟨rfl, rfl⟩

theorem ctxCarriesErr_recordCtx (ty ms st : String) (props : List (String × JVal)) :
    ctxCarriesErr (recordCtx [("err", .err ty ms st props)]) ty ms st props := by
  rw [ctxCarriesErr, recordCtx_err_general]
  refine ⟨rfl, rfl, rfl, ?_⟩
  simp [atPath, getKey, jsKeys, rsub_fst, rwild_fst]

/-! ## Claim theorems -/

/-- C1: when every classified argument is empty (no message and no
usable context) and the record fits the ceiling, the emitted record's
message is "Empty log message" and its context is `{ err }` with the
error's message equal to that text and its stack the capture of the
original call site. -/
theorem empty_input_record (maxSize : Nat) (callSite : String) (inputArgs : List JVal)
    (hempty : (classifyArgs inputArgs).any isNotEmpty = false)
    (hsize : measuredSize [] callSite inputArgs ≤ maxSize) :
    emitted [] maxSize callSite inputArgs =
      (.obj [("err", .obj [("type", .str "Error"), ("message", .str "Empty log message"),
        ("stack", .str callSite)])],
       .str "Empty log message") := by
  have hargs : getArgs callSite inputArgs = [.undef, fail callSite "Empty log message"] := by
    unfold getArgs
    simp [hempty]
  have hpair := emitted_fst maxSize callSite inputArgs .undef
    (fail callSite "Empty log message") hargs hsize
  have harg : spreadMerge [] (spreadFields (fail callSite "Empty log message")) =
      [("err", .err "Error" "Empty log message" callSite [])] := rfl
  have hfst : emitted [] maxSize callSite inputArgs =
      ((emitted [] maxSize callSite inputArgs).1, (emitted [] maxSize callSite inputArgs).2) := rfl
  rw [hfst, hpair.1, hpair.2, harg, recordCtx_err_general]
  rfl

/-- C1 witness: a zero-argument call under the default ceiling. -/
theorem empty_input_record_witness :
    emitted [] 10000 "at Object (test.js:1:1)" [] =
      (.obj [("err", .obj [("type", .str "Error"), ("message", .str "Empty log message"),
        ("stack", .str "at Object (test.js:1:1)")])],
       .str "Empty log message") :=
  empty_input_record 10000 "at Object (test.js:1:1)" [] (by decide) (by decide)

/-- C2 counterexample: with a configured ceiling of 1 byte, the
oversize replacement is produced, but its own serialized size under the
size-check serialization is 12 bytes — not below the ceiling, contrary
to the claim. -/
theorem oversize_replacement_ceiling_cex :
    measuredSize [] "cs" [.str "hi"] > 1 ∧
    logMethod [] 1 "cs" [.str "hi"] = [fail "cs" (oversizeText 9 1)] ∧
    byteLength (stringify (.arr (logMethod [] 1 "cs" [.str "hi"]))) = 12 ∧
    ¬ byteLength (stringify (.arr (logMethod [] 1 "cs" [.str "hi"]))) ≤ 1 :=
  ⟨by decide, rfl, rfl, by decide⟩

/-- C2 (amended): an oversize candidate is discarded and replaced by
`{ err: Error(text) }` whose error message — surfaced as the record
message — reads the oversize text with grouping separators; the
replacement's own serialized size under the size-check serialization is
the constant 12 bytes, which is below the ceiling whenever the ceiling
is at least 12 bytes (in particular under the default 10000), and not
otherwise. -/
theorem oversize_replacement (store : List (String × JVal)) (maxSize : Nat) (callSite : String)
    (inputArgs : List JVal)
    (h : measuredSize store callSite inputArgs > maxSize) :
    logMethod store maxSize callSite inputArgs =
      [fail callSite (oversizeText (measuredSize store callSite inputArgs) maxSize)] ∧
    atPath (emitted store maxSize callSite inputArgs).1 ["err", "message"] =
      some (.str (oversizeText (measuredSize store callSite inputArgs) maxSize)) ∧
    (emitted store maxSize callSite inputArgs).2 =
      .str (oversizeText (measuredSize store callSite inputArgs) maxSize) ∧
    byteLength (stringify (.arr (logMethod store maxSize callSite inputArgs))) = 12 ∧
    (12 ≤ maxSize →
      byteLength (stringify (.arr (logMethod store maxSize callSite inputArgs))) ≤ maxSize) := by
  have hlog : logMethod store maxSize callSite inputArgs =
      [fail callSite (oversizeText (measuredSize store callSite inputArgs) maxSize)] := by
    rw [logMethod, if_pos h]
  have hctx : (emitted store maxSize callSite inputArgs).1 =
      recordCtx [("err", .err "Error"
        (oversizeText (measuredSize store callSite inputArgs) maxSize) callSite [])] := by
    unfold emitted
    rw [hlog]
    rfl
  have hmsg : (emitted store maxSize callSite inputArgs).2 =
      .str (oversizeText (measuredSize store callSite inputArgs) maxSize) := by
    unfold emitted
    rw [hlog]
    rfl
  refine ⟨hlog, ?_, hmsg, ?_, ?_⟩
  · rw [hctx, recordCtx_err_general]
    rfl
  · rw [hlog]
    rfl
  · intro h12
    rw [hlog]
    have h2 : byteLength (stringify (.arr [fail callSite
        (oversizeText (measuredSize store callSite inputArgs) maxSize)])) = 12 := rfl
    omega

/-- C2 witness: a ceiling of 12 bytes and a 19-byte candidate — the
replacement fires and, the ceiling being at least 12 bytes, the
replacement itself fits it. -/
theorem oversize_replacement_witness :
    measuredSize [] "cs" [.str "hello world!"] > 12 ∧
    logMethod [] 12 "cs" [.str "hello world!"] =
      [fail "cs" (oversizeText (measuredSize [] "cs" [.str "hello world!"]) 12)] ∧
    byteLength (stringify (.arr (logMethod [] 12 "cs" [.str "hello world!"]))) ≤ 12 := by
  have h : measuredSize [] "cs" [.str "hello world!"] > 12 := by decide
  have hc := oversize_replacement [] 12 "cs" [.str "hello world!"] h
  exact ⟨h, hc.1, hc.2.2.2.2 (by omega)⟩

/-- C4: an error passed alone, as second argument, or wrapped under an
`err` or `error` key, always reaches the emitted context as `ctx.err`
carrying the error's constructor type, message, stack and the names of
all its custom enumerable properties — provided the candidate fits the
size ceiling. -/
theorem error_input_ctx_err (ty ms st : String) (props : List (String × JVal)) (m : JVal)
    (maxSize : Nat) (callSite : String)
    (h1 : measuredSize [] callSite [.err ty ms st props] ≤ maxSize)
    (h2 : measuredSize [] callSite [m, .err ty ms st props] ≤ maxSize)
    (h3 : measuredSize [] callSite [m, .obj [("err", .err ty ms st props)]] ≤ maxSize)
    (h4 : measuredSize [] callSite [m, .obj [("error", .err ty ms st props)]] ≤ maxSize) :
    ctxCarriesErr (emitted [] maxSize callSite [.err ty ms st props]).1 ty ms st props ∧
    ctxCarriesErr (emitted [] maxSize callSite [m, .err ty ms st props]).1 ty ms st props ∧
    ctxCarriesErr
      (emitted [] maxSize callSite [m, .obj [("err", .err ty ms st props)]]).1 ty ms st props ∧
    ctxCarriesErr
      (emitted [] maxSize callSite [m, .obj [("error", .err ty ms st props)]]).1
      ty ms st props := by
  have hkeys : isNotEmpty (.obj [("err", JVal.err ty ms st props)]) = true := rfl
  have hargs1 : getArgs callSite [.err ty ms st props] =
      [.undef, .obj [("err", .err ty ms st props)]] := by
    unfold getArgs
    simp [classifyArgs, isDate, isError, typeOf, List.getD, isNotEmpty, jsKeys]
  have hargs2 : getArgs callSite [m, .err ty ms st props] =
      [m, .obj [("err", .err ty ms st props)]] := by
    unfold getArgs
    rw [classifyArgs_cons_cons]
    simp [isDate, isError, hkeys]
  have hargs3 : getArgs callSite [m, .obj [("err", .err ty ms st props)]] =
      [m, .obj [("err", .err ty ms st props)]] := by
    unfold getArgs
    rw [classifyArgs_cons_cons]
    simp [isDate, isError, hkeys]
  have hargs4 : getArgs callSite [m, .obj [("error", .err ty ms st props)]] =
      [m, .obj [("error", .err ty ms st props)]] := by
    unfold getArgs
    rw [classifyArgs_cons_cons]
    simp [isDate, isError, isNotEmpty, typeOf, jsKeys]
  refine ⟨?_, ?_, ?_, ?_⟩
  · rw [(emitted_fst maxSize callSite _ _ _ hargs1 h1).1]
    exact ctxCarriesErr_recordCtx ty ms st props
  · rw [(emitted_fst maxSize callSite _ _ _ hargs2 h2).1]
    exact ctxCarriesErr_recordCtx ty ms st props
  · rw [(emitted_fst maxSize callSite _ _ _ hargs3 h3).1]
    exact ctxCarriesErr_recordCtx ty ms st props
  · rw [(emitted_fst maxSize callSite _ _ _ hargs4 h4).1]
    have harg : spreadMerge [] (spreadFields (.obj [("error", JVal.err ty ms st props)])) =
        [("error", JVal.err ty ms st props)] := rfl
    rw [harg, recordCtx_error]
    exact ctxCarriesErr_recordCtx ty ms st props

/-- C4 witness: a `TypeError` with one custom property, through all
four routes, under the default ceiling. -/
theorem error_input_ctx_err_witness :
    ctxCarriesErr (emitted [] 10000 "cs" [.err "TypeError" "boom" "stacktrace"
      [("code", .num 42)]]).1 "TypeError" "boom" "stacktrace" [("code", .num 42)] ∧
    ctxCarriesErr (emitted [] 10000 "cs" [.str "msg", .err "TypeError" "boom" "stacktrace"
      [("code", .num 42)]]).1 "TypeError" "boom" "stacktrace" [("code", .num 42)] ∧
    ctxCarriesErr (emitted [] 10000 "cs" [.str "msg", .obj [("err", .err "TypeError" "boom"
      "stacktrace" [("code", .num 42)])]]).1 "TypeError" "boom" "stacktrace"
      [("code", .num 42)] ∧
    ctxCarriesErr (emitted [] 10000 "cs" [.str "msg", .obj [("error", .err "TypeError" "boom"
      "stacktrace" [("code", .num 42)])]]).1 "TypeError" "boom" "stacktrace"
      [("code", .num 42)] :=
  error_input_ctx_err "TypeError" "boom" "stacktrace" [("code", .num 42)] (.str "msg")
    10000 "cs" (by decide) (by decide) (by decide) (by decide)

/-- C3: the merged context maps every key to the explicit context's
value when the key is present there (even when both values are equal),
and to the ambient store's value otherwise; and for a non-empty
explicit context object passed as second argument, the record's merged
context is exactly this merge. -/
theorem merge_explicit_wins (A C : List (String × JVal)) (k : String) (m : JVal)
    (rest : List JVal) (callSite : String)
    (hnd : (C.map Prod.fst).Nodup) (hne : isNotEmpty (.obj C) = true) :
    getKey (spreadMerge A C) k = (getKey C k).or (getKey A k) ∧
    mergeStoreCtx A ((getArgs callSite (m :: .obj C :: rest)).getD 1 .undef) =
      spreadMerge A C := by
  refine ⟨spreadMerge_lookup A C k hnd, ?_⟩
  have hargs : getArgs callSite (m :: .obj C :: rest) = [m, .obj C] := by
    unfold getArgs
    rw [classifyArgs_cons_cons]
    simp [isDate, isError, hne]
  rw [hargs]
  rfl

/-- C3 witness: the spec's own example — ambient
`{tracer:123, foo:"baz"}` with explicit `{foo:"bar"}`. -/
theorem merge_explicit_wins_witness :
    getKey (spreadMerge [("tracer", JVal.num 123), ("foo", JVal.str "baz")]
        [("foo", JVal.str "bar")]) "foo" =
      (getKey [("foo", JVal.str "bar")] "foo").or
        (getKey [("tracer", JVal.num 123), ("foo", JVal.str "baz")] "foo") ∧
    mergeStoreCtx [("tracer", JVal.num 123), ("foo", JVal.str "baz")]
        ((getArgs "cs" [JVal.str "m", .obj [("foo", JVal.str "bar")]]).getD 1 .undef) =
      spreadMerge [("tracer", JVal.num 123), ("foo", JVal.str "baz")]
        [("foo", JVal.str "bar")] :=
  merge_explicit_wins [("tracer", JVal.num 123), ("foo", JVal.str "baz")]
    [("foo", JVal.str "bar")] "foo" (JVal.str "m") [] "cs" (by simp) (by rfl)

/-- C6: a date as the second of two or more arguments yields
`context = { ts: date }` with the first argument as the message, and a
single date argument yields `message = undefined`,
`context = { ts: date }`. -/
theorem date_arg_ts_context (callSite : String) (first : JVal) (ms : Int) (rest : List JVal) :
    getArgs callSite (first :: .date ms :: rest) = [first, .obj [("ts", .date ms)]] ∧
    getArgs callSite [.date ms] = [.undef, .obj [("ts", .date ms)]] := by
  constructor
  · unfold getArgs
    rw [classifyArgs_cons_cons]
    simp [isDate, isNotEmpty, typeOf, jsKeys]
  · unfold getArgs
    simp [classifyArgs, isDate, isError, typeOf, isNotEmpty, jsKeys, List.getD]

/-- C7 counterexample: a `password` four levels deep in the context —
beyond the reach of the configured `password`, `*.password` and
`*[*].password` paths — and a `headers` block under a request object
that is itself wrapped under an unconfigured key both reach the
emitted record unredacted, contradicting "at any depth" and "every
headers block under a request or response object". -/
theorem redaction_depth_cex :
    atPath (emitted [] 10000 "cs" [.str "msg",
        .obj [("a", .obj [("b", .obj [("c", .obj [("password", .str "x")])])])]]).1
      ["a", "b", "c", "password"] = some (.str "x") ∧
    atPath (emitted [] 10000 "cs" [.str "msg",
        .obj [("foo", .obj [("req", .obj [("headers", .obj [("auth", .str "t")])])])]]).1
      ["foo", "req", "headers", "auth"] = some (.str "t") ∧
    JVal.str "x" ≠ JVal.str "[Redacted]" ∧ JVal.str "t" ≠ JVal.str "[Redacted]" := by
  have hargs1 : getArgs "cs" [.str "msg",
      .obj [("a", .obj [("b", .obj [("c", .obj [("password", .str "x")])])])]] =
      [.str "msg", .obj [("a", .obj [("b", .obj [("c", .obj [("password", .str "x")])])])]] := by
    unfold getArgs
    rw [classifyArgs_cons_cons]
    simp [isDate, isError, isNotEmpty, typeOf, jsKeys]
  have hargs2 : getArgs "cs" [.str "msg",
      .obj [("foo", .obj [("req", .obj [("headers", .obj [("auth", .str "t")])])])]] =
      [.str "msg", .obj [("foo", .obj [("req", .obj [("headers",
        .obj [("auth", .str "t")])])])]] := by
    unfold getArgs
    rw [classifyArgs_cons_cons]
    simp [isDate, isError, isNotEmpty, typeOf, jsKeys]
  have hout1 : outputArgsOf [] "cs" [.str "msg",
      .obj [("a", .obj [("b", .obj [("c", .obj [("password", .str "x")])])])]] =
      [.obj [("a", .obj [("b", .obj [("c", .obj [("password", JVal.str "x")])])])],
       .str "msg"] := by
    rw [outputArgsOf, hargs1]
    rfl
  have hout2 : outputArgsOf [] "cs" [.str "msg",
      .obj [("foo", .obj [("req", .obj [("headers", .obj [("auth", .str "t")])])])]] =
      [.obj [("foo", .obj [("req", .obj [("headers", .obj [("auth", JVal.str "t")])])])],
       .str "msg"] := by
    rw [outputArgsOf, hargs2]
    rfl
  have hsz1 : measuredSize [] "cs" [.str "msg",
      .obj [("a", .obj [("b", .obj [("c", .obj [("password", .str "x")])])])]] ≤ 10000 := by
    rw [measuredSize, hout1]
    decide
  have hsz2 : measuredSize [] "cs" [.str "msg",
      .obj [("foo", .obj [("req", .obj [("headers", .obj [("auth", .str "t")])])])]] ≤ 10000 := by
    rw [measuredSize, hout2]
    decide
  have hpair1 := emitted_fst 10000 "cs" _ _ _ hargs1 hsz1
  have hpair2 := emitted_fst 10000 "cs" _ _ _ hargs2 hsz2
  rw [hpair1.1, hpair2.1]
  have harg1 : spreadMerge [] (spreadFields (.obj
      [("a", .obj [("b", .obj [("c", .obj [("password", JVal.str "x")])])])])) =
      [("a", .obj [("b", .obj [("c", .obj [("password", JVal.str "x")])])])] := rfl
  have harg2 : spreadMerge [] (spreadFields (.obj
      [("foo", .obj [("req", .obj [("headers", .obj [("auth", JVal.str "t")])])])])) =
      [("foo", .obj [("req", .obj [("headers", .obj [("auth", JVal.str "t")])])])] := rfl
  rw [harg1, harg2]
  refine ⟨?_, ?_, by simp, by simp⟩ <;>
    simp [recordCtx, formattersLog, getKey, spreadMerge, setKey, applyErrSerializer,
          serializeError, redactAll, builtinPaths, redactSegs, List.foldl, List.find?, atPath]

/-- C7 (amended): redaction applies after the ambient/explicit merge
and before the record leaves the core, replacing with the fixed marker
exactly the configured shapes — `password`/`email` at the top of the
context, one level deep under any key, or two levels deep under any
pair of keys (through object fields or array indices alike), and the
`headers` children under the configured wrappers rooted at the top of
the context: `req`/`request`/`res`/`resp`/`response`, the
response-request combinations `res.req`/`resp.req`/`response.request`,
and each of these under `err` — while preserving all sibling keys.
Occurrences outside these shapes — a password four levels deep, or
headers under an unconfigured wrapper — are not redacted (see the
counterexample). -/
theorem redaction_configured_paths (v1 v2 v3 v4 v5 v6 : JVal)
    (s1 s2 s3 s4 s5 s6 s7 s8 : String) (hs2 hs3 : List (String × JVal)) :
    recordCtx
      [("password", v1), ("email", v2),
       ("u", .obj [("password", v3), ("email", v4), ("sib", .str s1)]),
       ("lst", .arr [.obj [("password", v5), ("keep", .str s2)]]),
       ("w", .obj [("z", .obj [("email", v6), ("keep", .str s3)])]),
       ("req", .obj [("headers", .obj [("authorization", .str s4), ("cookie", .str s5)]),
                     ("extra", .str s6)]),
       ("res", .obj [("req", .obj [("headers", .obj hs2), ("other", .str s7)])]),
       ("err", .obj [("response", .obj [("request", .obj [("headers", .obj hs3)])]),
                     ("more", .str s8)])] =
      .obj
        [("err", .obj [("response", .obj [("request", .obj [("headers",
            .obj (hs3.map (fun p => (p.1, .str "[Redacted]"))))])]),
          ("more", .str s8)]),
         ("password", .str "[Redacted]"),
         ("email", .str "[Redacted]"),
         ("u", .obj [("password", .str "[Redacted]"), ("email", .str "[Redacted]"),
                     ("sib", .str s1)]),
         ("lst", .arr [.obj [("password", .str "[Redacted]"), ("keep", .str s2)]]),
         ("w", .obj [("z", .obj [("email", .str "[Redacted]"), ("keep", .str s3)])]),
         ("req", .obj [("headers", .obj [("authorization", .str "[Redacted]"),
                                         ("cookie", .str "[Redacted]")]),
                       ("extra", .str s6)]),
         ("res", .obj [("req", .obj [("headers",
            .obj (hs2.map (fun p => (p.1, .str "[Redacted]")))), ("other", .str s7)])])] := by
  simp [recordCtx, formattersLog, getKey, spreadMerge, setKey, applyErrSerializer,
        serializeError, redactAll, builtinPaths, redactSegs, List.foldl, List.find?]

/-- C8: a single bigint argument becomes a message equal to the exact
decimal string of the bigint, with no context entry; reading the string
back yields the original value, so no precision is lost at any
magnitude. -/
theorem bigint_exact_message (callSite : String) (n : Int) :
    getArgs callSite [.big n] = [.str (jsBigString n)] ∧
    parseDecInt (jsBigString n) = n := by
  refine ⟨?_, parseDecInt_jsBigString n⟩
  unfold getArgs
  simp [classifyArgs, isDate, isError, typeOf, List.getD, isNotEmpty,
        jsTrimEmpty_jsBigString n]

/-- C9: arguments beyond the second are discarded: two calls with two
or more arguments that agree on their first two arguments produce
identical records, whatever trails them. -/
theorem extra_args_discarded (store : List (String × JVal)) (maxSize : Nat) (callSite : String)
    (a b : JVal) (r r' : List JVal) :
    logMethod store maxSize callSite (a :: b :: r) =
      logMethod store maxSize callSite (a :: b :: r') := by
  have h : getArgs callSite (a :: b :: r) = getArgs callSite (a :: b :: r') := by
    unfold getArgs
    rw [classifyArgs_cons_cons, classifyArgs_cons_cons]
  simp only [logMethod, measuredSize, outputArgsOf, h]

/-- C5: the pipeline is a total function — no input can make it raise —
and every call yields a structurally valid record: a context object in
leading position, followed by at most a message. -/
theorem log_never_throws_shape (store : List (String × JVal)) (maxSize : Nat)
    (callSite : String) (inputArgs : List JVal) :
    ∃ fs rest, logMethod store maxSize callSite inputArgs = .obj fs :: rest ∧
      rest.length ≤ 1 := by
  unfold logMethod
  split
  · exact ⟨[("err", .err "Error" (oversizeText (measuredSize store callSite inputArgs) maxSize)
        callSite [])], [], rfl, by simp⟩
  · exact ⟨_, [(getArgs callSite inputArgs).getD 0 .undef], rfl, by simp⟩

/-- C10: the record is replaced exactly when the measured size exceeds
the ceiling, and the measured size is the byte length of the serialized
`[mergedContext, message]` pair as assembled — before redaction and
before the engine stamps level, severity and time. -/
theorem size_check_pre_redaction (store : List (String × JVal)) (maxSize : Nat)
    (callSite : String) (inputArgs : List JVal) :
    (logMethod store maxSize callSite inputArgs =
        [fail callSite (oversizeText (measuredSize store callSite inputArgs) maxSize)] ↔
      measuredSize store callSite inputArgs > maxSize) ∧
    measuredSize store callSite inputArgs =
      byteLength (stringify (.arr
        [.obj (mergeStoreCtx store ((getArgs callSite inputArgs).getD 1 .undef)),
         (getArgs callSite inputArgs).getD 0 .undef])) := by
  refine ⟨⟨?_, ?_⟩, rfl⟩
  · intro h
    by_contra hgt
    rw [logMethod, if_neg hgt] at h
    simp [outputArgsOf] at h
  · intro h
    rw [logMethod, if_pos h]

end AcmeLogging
